import Mathlib

/-!
Shallow embedding of the task-management backend
(controllers `taskController.js`, `categoryController.js`, `authController.js`
and the data model of `models/Category.js`; the `Task` and `User` schema files
are not present under `src/`, so their record shapes are taken from the fields
the controllers read and write, with defaults modelled from the spec's data
model where a controller relies on them).

The document store is modelled as in-memory lists of records; each controller
handler becomes a pure function from a state and request data to the updated
state paired with either the success payload or the error response
(`code`, `message`, HTTP status) it sends.
-/

namespace TaskApp

/-- Task status enumeration (spec §3: todo | in-progress | completed | archived). -/
inductive Status
  | todo
  | inProgress
  | completed
  | archived
deriving DecidableEq, Repr

/-- String stored for each status value in the document store. -/
def Status.str : Status → String
  | .todo => "todo"
  | .inProgress => "in-progress"
  | .completed => "completed"
  | .archived => "archived"

/-- Task priority enumeration (spec §3: low | medium | high). -/
inductive Priority
  | low
  | medium
  | high
deriving DecidableEq, Repr

/-- String stored for each priority value in the document store. -/
def Priority.str : Priority → String
  | .low => "low"
  | .medium => "medium"
  | .high => "high"

/-- Refresh token as issued by `generateRefreshToken` in `authController.js`:
a signed claim whose subject is the user id.  Signing is modelled by tagging
each issued token with a fresh nonce drawn from a counter in the state, so
that two distinct signing events yield distinct token values (the JWT carries
an issued-at timestamp, so consecutive issues differ).  Values of this type
model tokens that verify correctly (signature valid, not expired);
`jwt.verify` on them succeeds and returns the subject id. -/
structure RToken where
  sub : Nat
  nonce : Nat
deriving DecidableEq, Repr

/-- User record. Fields from `authController.js`: `password` is stored as a
one-way hash (`comparePassword` checks the candidate against it), and
`refreshToken` holds the single stored refresh token, nullable. -/
structure User where
  id : Nat
  username : String
  email : String
  passwordHash : String
  refreshToken : Option RToken := none
deriving DecidableEq, Repr

/-- Category record, from `models/Category.js`: name, color (default
`#3B82F6`), owning user, and the denormalized `taskCount` (default 0).
`taskCount` is an `Int` because the controllers decrement it with `$inc: -1`,
which can drive it below zero. -/
structure Category where
  id : Nat
  user : Nat
  name : String
  color : String := "#3B82F6"
  taskCount : Int := 0
deriving DecidableEq, Repr

/-- Task record; fields are the ones `taskController.js` reads and writes.
The Task schema file is not under `src/`, so the defaults (status todo,
priority medium, empty tags and share list) are modelled from the spec's
data model §3. -/
structure Task where
  id : Nat
  user : Nat
  title : String
  description : String := ""
  status : Status := .todo
  priority : Priority := .medium
  dueDate : Option Nat := none
  category : Option Nat := none
  tags : List String := []
  estimatedHours : Option Nat := none
  sharedWith : List Nat := []
deriving DecidableEq, Repr

/-- Document-store state: the three collections plus the token-issuing
counter used to model fresh JWT signatures (see `RToken`). -/
structure St where
  users : List User := []
  cats : List Category := []
  tasks : List Task := []
  tokenCtr : Nat := 0
deriving DecidableEq, Repr

/-- Error envelope sent on failure: `error.code`, `error.message` and the
HTTP status of the response. -/
structure ErrResp where
  code : String
  msg : String
  status : Nat
deriving DecidableEq, Repr

instance {ε α : Type} [DecidableEq ε] [DecidableEq α] : DecidableEq (Except ε α) :=
  fun x y =>
    match x, y with
    | .ok a, .ok b =>
      if h : a = b then .isTrue (h ▸ rfl) else .isFalse (fun he => h (Except.ok.inj he))
    | .error a, .error b =>
      if h : a = b then .isTrue (h ▸ rfl) else .isFalse (fun he => h (Except.error.inj he))
    | .ok _, .error _ => .isFalse (fun he => Except.noConfusion he)
    | .error _, .ok _ => .isFalse (fun he => Except.noConfusion he)

/-- 404 NOT_FOUND response for a missing or not-owned task. -/
def taskNotFound : ErrResp := ⟨"NOT_FOUND", "Task not found", 404⟩

/-- 404 NOT_FOUND response for a missing or not-owned category. -/
def categoryNotFound : ErrResp := ⟨"NOT_FOUND", "Category not found", 404⟩

/-- 400 INVALID_TRANSITION response of `updateTaskStatus`. -/
def invalidTransition : ErrResp := ⟨"INVALID_TRANSITION", "Cannot change status from archived", 400⟩

/-- 400 ALREADY_SHARED response of `shareTask` (dead code in the source, kept
for reference; see `shareTask`). -/
def alreadyShared : ErrResp := ⟨"ALREADY_SHARED", "Task already shared with this user", 400⟩

/-- 500 SERVER_ERROR response produced by a handler's catch block; the message
is the thrown error's message. -/
def serverError (m : String) : ErrResp := ⟨"SERVER_ERROR", m, 500⟩

/-- 401 INVALID_CREDENTIALS response of `login` (both failure branches). -/
def invalidCredentials : ErrResp := ⟨"INVALID_CREDENTIALS", "Invalid email or password", 401⟩

/-- 401 NO_TOKEN response of `refreshToken` when no token is supplied. -/
def noTokenResp : ErrResp := ⟨"NO_TOKEN", "Refresh token is required", 401⟩

/-- 401 INVALID_TOKEN response of `refreshToken` when no user stores the
presented token. -/
def invalidTokenResp : ErrResp := ⟨"INVALID_TOKEN", "Invalid refresh token", 401⟩

/-- `Task.findOne(\x7b _id: tid, user: uid \x7d)`: first task matching both the
id and the owner. -/
def findTask (s : St) (tid uid : Nat) : Option Task :=
  s.tasks.find? (fun t => t.id == tid && t.user == uid)

/-- `Category.findOne(\x7b _id: cid, user: uid \x7d)`. -/
def findCat (s : St) (cid uid : Nat) : Option Category :=
  s.cats.find? (fun c => c.id == cid && c.user == uid)

/-- `Category.findByIdAndUpdate(cid, \x7b $inc: \x7b taskCount: d \x7d \x7d)`:
adds `d` to the counter of the category with id `cid` (a no-op when no such
category exists; ids are unique in the store, so at most one record changes). -/
def catInc (cid : Nat) (d : Int) (cats : List Category) : List Category :=
  cats.map (fun c => if c.id == cid then { c with taskCount := c.taskCount + d } else c)

/-- `task.save()` after mutating a fetched document: writes the document back
over the record with its id. -/
def saveTask (t : Task) (tasks : List Task) : List Task :=
  tasks.map (fun x => if x.id == t.id then t else x)

/-- Request body of `createTask` (the destructured fields of `req.body`;
`status` is not destructured, so a created task always starts at the schema
default). -/
structure CreateBody where
  title : String
  description : String := ""
  priority : Priority := .medium
  dueDate : Option Nat := none
  category : Option Nat := none
  tags : List String := []
  estimatedHours : Option Nat := none
deriving DecidableEq, Repr

/-- `createTask` (taskController.js): if a category id is supplied it must
resolve to a category owned by the caller, else 404 `Category not found`
before anything is written; on success the task is inserted and, when a
category was supplied, that category's `taskCount` is incremented by 1.
`newId` models the id the store assigns to the inserted document. -/
def createTask (s : St) (uid : Nat) (b : CreateBody) (newId : Nat) :
    St × Except ErrResp Task :=
  match b.category with
  | some cid =>
    match findCat s cid uid with
    | none => (s, .error categoryNotFound)
    | some _ =>
      let t : Task :=
        { id := newId, user := uid, title := b.title, description := b.description,
          priority := b.priority, dueDate := b.dueDate, category := some cid,
          tags := b.tags, estimatedHours := b.estimatedHours }
      let s1 := { s with tasks := s.tasks ++ [t] }
      ({ s1 with cats := catInc cid 1 s1.cats }, .ok t)
  | none =>
    let t : Task :=
      { id := newId, user := uid, title := b.title, description := b.description,
        priority := b.priority, dueDate := b.dueDate, category := none,
        tags := b.tags, estimatedHours := b.estimatedHours }
    ({ s with tasks := s.tasks ++ [t] }, .ok t)

/-- Request body of `updateTask`.  The source iterates over the keys present
in `req.body`, so every field is optional: `none` models an absent key.  For
`category` and `dueDate` the value itself may be `null`, hence the nested
option (`some none` is an explicit null, `some (some v)` a value). -/
structure UpdateBody where
  title : Option String := none
  description : Option String := none
  status : Option Status := none
  priority : Option Priority := none
  dueDate : Option (Option Nat) := none
  category : Option (Option Nat) := none
  tags : Option (List String) := none
  estimatedHours : Option (Option Nat) := none
deriving DecidableEq, Repr

/-- The `Object.keys(req.body).forEach` loop of `updateTask`: every key
present in the body overwrites the task's field (`user` and `_id` are the
only keys skipped, and they are not representable in `UpdateBody`). -/
def applyBody (b : UpdateBody) (t : Task) : Task :=
  { t with
    title := b.title.getD t.title,
    description := b.description.getD t.description,
    status := b.status.getD t.status,
    priority := b.priority.getD t.priority,
    dueDate := b.dueDate.getD t.dueDate,
    category := b.category.getD t.category,
    tags := b.tags.getD t.tags,
    estimatedHours := b.estimatedHours.getD t.estimatedHours }

/-- The source condition `oldCategory && oldCategory.toString() !== newCategory`:
true when the task has a category and the body's `category` value is not the
same id — in JavaScript an absent key (`undefined`) and an explicit `null`
both compare unequal to the old id's string, so both trigger the decrement. -/
def decOldCond (oldCat : Option Nat) (newCat : Option (Option Nat)) : Bool :=
  oldCat.isSome &&
    (match oldCat, newCat with
     | some o, some (some n) => o != n
     | _, _ => true)

/-- The source condition `newCategory && oldCategory?.toString() !== newCategory`:
true when the body supplies a non-null category id different from the old one
(or the task had none). -/
def incNewCond (oldCat : Option Nat) (n : Nat) : Bool :=
  match oldCat with
  | some o => o != n
  | none => true

/-- `updateTask` (taskController.js): look up the task by id and owner (404
`Task not found` otherwise); if `decOldCond` holds, decrement the old
category's counter; if the body supplies a new category id different from the
old, it must exist and belong to the caller (else 404 `Category not found`,
with the decrement already persisted); then every key present in the body
overwrites the task's field and the task is saved. -/
def updateTask (s : St) (uid tid : Nat) (b : UpdateBody) :
    St × Except ErrResp Task :=
  match findTask s tid uid with
  | none => (s, .error taskNotFound)
  | some task =>
    let oldCat := task.category
    let s1 :=
      if decOldCond oldCat b.category then
        { s with cats := catInc (oldCat.getD 0) (-1) s.cats }
      else s
    match b.category with
    | some (some n) =>
      if incNewCond oldCat n then
        match findCat s1 n uid with
        | none => (s1, .error categoryNotFound)
        | some _ =>
          let s2 := { s1 with cats := catInc n 1 s1.cats }
          let t' := applyBody b task
          ({ s2 with tasks := saveTask t' s2.tasks }, .ok t')
      else
        let t' := applyBody b task
        ({ s1 with tasks := saveTask t' s1.tasks }, .ok t')
    | _ =>
      let t' := applyBody b task
      ({ s1 with tasks := saveTask t' s1.tasks }, .ok t')

/-- `deleteTask` (taskController.js): `findOneAndDelete` by id and owner (404
`Task not found` when absent); removes that one document, then decrements the
deleted task's category counter when it referenced one. -/
def deleteTask (s : St) (uid tid : Nat) : St × Except ErrResp Task :=
  match findTask s tid uid with
  | none => (s, .error taskNotFound)
  | some task =>
    let s1 := { s with tasks := s.tasks.eraseP (fun t => t.id == tid && t.user == uid) }
    match task.category with
    | some cid => ({ s1 with cats := catInc cid (-1) s1.cats }, .ok task)
    | none => (s1, .ok task)

/-- `updateTaskStatus` (taskController.js): look up by id and owner (404
otherwise); if the current status is archived and the requested status is not
archived, fail 400 INVALID_TRANSITION without writing; otherwise set the
status unconditionally and save. -/
def updateTaskStatus (s : St) (uid tid : Nat) (st : Status) :
    St × Except ErrResp Task :=
  match findTask s tid uid with
  | none => (s, .error taskNotFound)
  | some task =>
    if task.status == Status.archived && st != Status.archived then
      (s, .error invalidTransition)
    else
      let t' := { task with status := st }
      ({ s with tasks := saveTask t' s.tasks }, .ok t')

/-- `updateTaskPriority` (taskController.js): `findOneAndUpdate` by id and
owner setting `priority` (404 `Task not found` when absent). -/
def updateTaskPriority (s : St) (uid tid : Nat) (p : Priority) :
    St × Except ErrResp Task :=
  match findTask s tid uid with
  | none => (s, .error taskNotFound)
  | some task =>
    let t' := { task with priority := p }
    ({ s with tasks := saveTask t' s.tasks }, .ok t')

/-- `shareTask` (taskController.js): look up the task by id and owner (404
`Task not found` when absent or not owned).  The next source statement is
`const userToShare = await User.findById(userId)`, but the module's imports
(lines 1-3) bring only `Task`, `Category` and `mongoose` into scope — `User`
is an unbound identifier, so evaluating it throws a ReferenceError with
message `User is not defined`.  The handler's catch block turns that into a
500 SERVER_ERROR response.  The user-existence check, the ALREADY_SHARED
check and the `sharedWith.push` below that line are unreachable. -/
def shareTask (s : St) (uid tid _targetId : Nat) : St × Except ErrResp Task :=
  match findTask s tid uid with
  | none => (s, .error taskNotFound)
  | some _task =>
    (s, .error (serverError "User is not defined"))

/-- One-way password hash (bcrypt in the source): injective string tagging is
enough here, since the claims about `login` concern only its error responses. -/
def hashP (p : String) : String := "hashed:" ++ p

/-- `user.comparePassword(candidate)`: checks the candidate against the
stored hash. -/
def comparePassword (u : User) (p : String) : Bool :=
  u.passwordHash == hashP p

/-- `generateRefreshToken(id)`: signs a claim with subject `id`; the fresh
nonce models the signature/issued-at making each issue a distinct value. -/
def generateRefreshToken (id ctr : Nat) : RToken := ⟨id, ctr⟩

/-- Write a mutated user document back over the record with its id
(`user.save()`). -/
def saveUser (u : User) (users : List User) : List User :=
  users.map (fun x => if x.id == u.id then u else x)

/-- `login` (authController.js): look up the user by email — unknown email
fails 401 INVALID_CREDENTIALS; then check the password — mismatch fails with
the *same* 401 INVALID_CREDENTIALS response; on success issue fresh tokens
and persist the new refresh token on the user record. -/
def login (s : St) (email password : String) :
    St × Except ErrResp (User × RToken) :=
  match s.users.find? (fun u => u.email == email) with
  | none => (s, .error invalidCredentials)
  | some u =>
    if !comparePassword u password then
      (s, .error invalidCredentials)
    else
      let newTok := generateRefreshToken u.id s.tokenCtr
      let u' := { u with refreshToken := some newTok }
      ({ s with users := saveUser u' s.users, tokenCtr := s.tokenCtr + 1 },
       .ok (u, newTok))

/-- `refreshToken` (authController.js): 401 NO_TOKEN when no token is
supplied; `jwt.verify` succeeds on every `RToken` value (they model correctly
signed, unexpired tokens) and yields the subject id; then
`User.findOne(\x7b _id: decoded.id, refreshToken \x7d)` — when no user stores
exactly this token, 401 INVALID_TOKEN; otherwise a new refresh token is
issued, stored in place of the presented one, and returned. -/
def refresh (s : St) (tok : Option RToken) : St × Except ErrResp RToken :=
  match tok with
  | none => (s, .error noTokenResp)
  | some t =>
    match s.users.find? (fun u => u.id == t.sub && u.refreshToken == some t) with
    | none => (s, .error invalidTokenResp)
    | some u =>
      let newTok := generateRefreshToken u.id s.tokenCtr
      let u' := { u with refreshToken := some newTok }
      ({ s with users := saveUser u' s.users, tokenCtr := s.tokenCtr + 1 },
       .ok newTok)

/-- `deleteCategory` (categoryController.js): `findOneAndDelete` by id and
owner — 404 `Category not found` when absent or not owned; otherwise that
one document is removed and `Task.updateMany(\x7b category: category._id,
user: req.user.id \x7d, \x7b category: null \x7d)` clears the category
reference on every task of the same owner that referenced it, leaving their
other fields untouched. -/
def deleteCategory (s : St) (uid cid : Nat) : St × Except ErrResp Unit :=
  match findCat s cid uid with
  | none => (s, .error categoryNotFound)
  | some c =>
    let s1 := { s with cats := s.cats.eraseP (fun x => x.id == cid && x.user == uid) }
    ({ s1 with
        tasks := s1.tasks.map (fun t =>
          if t.category == some c.id && t.user == uid then
            { t with category := none }
          else t) },
     .ok ())

/-- Auxiliary to `splitChar`: accumulates the current field in reverse. -/
def splitAux (sep : Char) : List Char → List Char → List String
  | [], acc => [String.mk acc.reverse]
  | c :: cs, acc =>
    if c == sep then String.mk acc.reverse :: splitAux sep cs []
    else splitAux sep cs (c :: acc)

/-- JavaScript's `String.prototype.split` with a single-character separator
(used by the source as `status.split(',')` and `sortBy.split(':')`): splits
into the fields between separator occurrences, an empty string yielding
`[""]`. -/
def splitChar (sep : Char) (s : String) : List String :=
  splitAux sep s.toList []

/-- Request filter parameters consumed by `buildFilterQuery` (raw request
strings: `status` is the comma-separated list, `priority` the raw string
compared for equality with the stored value). -/
structure Filters where
  status : Option String := none
  priority : Option String := none
  category : Option Nat := none
  dueGte : Option Nat := none
  dueLte : Option Nat := none
  search : Option String := none
deriving DecidableEq, Repr

/-- The query object produced by `buildFilterQuery`: always carries
`user := uid`; `statusIn` is the `$in` list from splitting the status
parameter on commas; the rest are optional exact-match / range / regex
clauses. -/
structure Query where
  user : Nat
  statusIn : Option (List String) := none
  priority : Option String := none
  category : Option Nat := none
  dueGte : Option Nat := none
  dueLte : Option Nat := none
  search : Option String := none
deriving DecidableEq, Repr

/-- `buildFilterQuery(user, filters)` (taskController.js): pure translation of
the request parameters into the query object, always scoped to the user. -/
def buildFilterQuery (uid : Nat) (f : Filters) : Query :=
  { user := uid,
    statusIn := f.status.map (fun str => splitChar ',' str),
    priority := f.priority,
    category := f.category,
    dueGte := f.dueGte,
    dueLte := f.dueLte,
    search := f.search }

/-- Character-list prefix test, auxiliary to the substring model. -/
def prefixChars : List Char → List Char → Bool
  | [], _ => true
  | _ :: _, [] => false
  | a :: as, b :: bs => a == b && prefixChars as bs

/-- Character-list substring test, auxiliary to the regex model. -/
def subChars (pat : List Char) : List Char → Bool
  | [] => pat.isEmpty
  | b :: bs => prefixChars pat (b :: bs) || subChars pat bs

/-- The `$regex … $options: 'i'` clause: case-insensitive substring match. -/
def ciContains (hay pat : String) : Bool :=
  subChars pat.toLower.toList hay.toLower.toList

/-- Semantics of the status clause of a query: `$in` membership over the
stored status strings when present, trivially true when absent. -/
def statusPart (q : Query) (t : Task) : Bool :=
  match q.statusIn with
  | some l => l.contains t.status.str
  | none => true

/-- Document-store semantics of the query object over one task document. -/
def matchesQuery (q : Query) (t : Task) : Bool :=
  t.user == q.user
  && statusPart q t
  && (match q.priority with
      | some p => t.priority.str == p
      | none => true)
  && (match q.category with
      | some c => t.category == some c
      | none => true)
  && (match q.dueGte with
      | some d => (match t.dueDate with
                   | some dd => d ≤ dd
                   | none => false)
      | none => true)
  && (match q.dueLte with
      | some d => (match t.dueDate with
                   | some dd => dd ≤ d
                   | none => false)
      | none => true)
  && (match q.search with
      | some str =>
        ciContains t.title str || ciContains t.description str
          || t.tags.any (fun tag => ciContains tag str)
      | none => true)

/-- Request parameters of `getTasks` (query string; `page`, `limit` and
`sortBy` destructure with defaults 1, 10 and `dueDate:asc`). -/
structure ListParams where
  status : Option String := none
  priority : Option String := none
  category : Option Nat := none
  search : Option String := none
  dueGte : Option Nat := none
  dueLte : Option Nat := none
  page : Option Nat := none
  limit : Option Nat := none
  sortBy : Option String := none
deriving DecidableEq, Repr

/-- The `Filters` record `getTasks` passes to `buildFilterQuery`. -/
def ListParams.filters (p : ListParams) : Filters :=
  { status := p.status, priority := p.priority, category := p.category,
    dueGte := p.dueGte, dueLte := p.dueLte, search := p.search }

/-- The pagination block of the `getTasks` response. -/
structure Pagination where
  total : Nat
  page : Nat
  limit : Nat
  pages : Nat
deriving DecidableEq, Repr

/-- The `stats` block of the `getTasks` response: exactly the four buckets
`todo`, `in-progress`, `completed`, `archived`, initialised to zero before the
aggregate's groups are written over them. -/
structure Stats where
  todo : Nat := 0
  inProgress : Nat := 0
  completed : Nat := 0
  archived : Nat := 0
deriving DecidableEq, Repr

/-- Count of the user's task documents holding one status, over the whole
collection (no filter beyond the owner). -/
def countByStatus (tasks : List Task) (uid : Nat) (st : Status) : Nat :=
  (tasks.filter (fun t => t.user == uid && t.status == st)).length

/-- The `Task.aggregate` pipeline of `getTasks`: `$match` on the user alone
(not the filter query), then `$group` by status with `$sum: 1`.  A grouping
aggregate emits one group per status value actually present among the matched
documents, each with its count; statuses with no document produce no group. -/
def aggregateStats (tasks : List Task) (uid : Nat) : List (Status × Nat) :=
  [Status.todo, Status.inProgress, Status.completed, Status.archived].filterMap
    (fun st =>
      let c := countByStatus tasks uid st
      if c == 0 then none else some (st, c))

/-- The `statsFormatted` construction of `getTasks`: start from the four
zeroed buckets and overwrite each bucket named by a group with that group's
count, so a status absent from the aggregate reports zero. -/
def formatStats (groups : List (Status × Nat)) : Stats :=
  groups.foldl
    (fun acc g =>
      match g.1 with
      | .todo => { acc with todo := g.2 }
      | .inProgress => { acc with inProgress := g.2 }
      | .completed => { acc with completed := g.2 }
      | .archived => { acc with archived := g.2 })
    {}

/-- Field comparison backing the sort: compares two task documents on the
stored value of the named field (strings for status/priority/title/
description, the numeric due date otherwise missing-last is not modelled —
documents with no value for the field compare equal, preserving their
relative order, which is how an all-missing field behaves). -/
def fieldLe (field : String) (a b : Task) : Bool :=
  if field == "dueDate" then
    match a.dueDate, b.dueDate with
    | some x, some y => x ≤ y
    | none, some _ => true
    | _, none => true
  else if field == "title" then a.title ≤ b.title
  else if field == "description" then a.description ≤ b.description
  else if field == "status" then a.status.str ≤ b.status.str
  else if field == "priority" then a.priority.str ≤ b.priority.str
  else true

/-- Stable insertion of one task into a list sorted by `le`. -/
def insertLe (le : Task → Task → Bool) (t : Task) : List Task → List Task
  | [] => [t]
  | x :: xs => if le x t then x :: insertLe le t xs else t :: x :: xs

/-- Stable insertion sort by `le` (the store's sort is stable for our
purposes; no claim depends on the ordering itself). -/
def sortTasksBy (le : Task → Task → Bool) : List Task → List Task
  | [] => []
  | x :: xs => insertLe le x (sortTasksBy le xs)

/-- The whole `getTasks` response body. -/
structure TaskListResp where
  tasks : List Task
  pagination : Pagination
  stats : Stats
deriving DecidableEq, Repr

/-- The skip computed by `getTasks`: `(pageNum - 1) * limitNum` (over the
integers, as in the source: page 0 would yield a negative skip). -/
def skipOf (pageNum limitNum : Nat) : Int :=
  ((pageNum : Int) - 1) * (limitNum : Int)

/-- The sort comparator `getTasks` derives from the `sortBy` parameter: a
single `field:direction` token, split on `:`; any direction other than
`desc` sorts ascending. -/
def sortLe (sortBy : String) : Task → Task → Bool :=
  let parts := splitChar ':' sortBy
  let sortField := parts.headD ""
  let sortDir := (parts.drop 1).headD ""
  fun a b => if sortDir == "desc" then fieldLe sortField b a else fieldLe sortField a b

/-- `getTasks` (taskController.js): builds the filter query; parses
`sortBy` (default `dueDate:asc`, any direction other than `desc` means
ascending); pages with defaults `page = 1`, `limit = 10` and
`skip = (page-1)*limit`; runs the filtered, sorted, paged find together with
`countDocuments` on the same filter for `pagination.total`; and computes the
`stats` block from the aggregate over ALL of the user's tasks (the `$match`
uses only the user id, not the filter). -/
def getTasks (s : St) (uid : Nat) (p : ListParams) : TaskListResp :=
  let q := buildFilterQuery uid p.filters
  let le := sortLe (p.sortBy.getD "dueDate:asc")
  let pageNum := p.page.getD 1
  let limitNum := p.limit.getD 10
  let skip := skipOf pageNum limitNum
  let filtered := s.tasks.filter (matchesQuery q)
  let total := filtered.length
  { tasks := ((sortTasksBy le filtered).drop skip.toNat).take limitNum,
    pagination :=
      { total := total, page := pageNum, limit := limitNum,
        pages := (total + limitNum - 1) / limitNum },
    stats := formatStats (aggregateStats s.tasks uid) }

/-! Concrete states used by the claim theorems. -/

/-- A store holding one archived task owned by user 1. -/
def archivedState : St :=
  { tasks := [{ id := 5, user := 1, title := "t", status := .archived }] }

/-- A store where user 1 owns category 7 (taskCount 1) and task 5 referencing it. -/
def c2State : St :=
  { cats := [{ id := 7, user := 1, name := "Work", taskCount := 1 }],
    tasks := [{ id := 5, user := 1, title := "Write spec", category := some 7 }] }

/-- A store where user 2 exists and user 1 owns task 5, not yet shared. -/
def c3State : St :=
  { users := [{ id := 2, username := "bob", email := "b@x.com", passwordHash := hashP "pw" }],
    tasks := [{ id := 5, user := 1, title := "t" }] }

/-- C1 counterexample: the claim says no operation changes an archived task's
status to a non-archived value, "including the generic update operation" —
but `updateTask` copies every body key onto the task with no archived check,
so updating the archived task 5 with body `\x7b status: "todo" \x7d` succeeds
and leaves the task at status todo. -/
theorem c1_counterexample :
    (updateTask archivedState 1 5 { status := some .todo }).2 =
      .ok { id := 5, user := 1, title := "t", status := .todo }
    ∧ (updateTask archivedState 1 5 { status := some .todo }).1.tasks =
      [{ id := 5, user := 1, title := "t", status := .todo }] := by
  decide

/-- C1 (amended): archived is terminal for the dedicated status operation
`updateTaskStatus` — on an archived task every request for a non-archived
status fails 400 INVALID_TRANSITION leaving the state unchanged, and
re-requesting archived succeeds idempotently (the task is returned
unchanged).  The guarantee does not extend to the generic `updateTask`
operation, which overwrites the status field (among others) from the body
with no archived check. -/
theorem c1_archived_terminal (s : St) (uid tid : Nat) (t : Task)
    (hfind : findTask s tid uid = some t) (harch : t.status = .archived) :
    (∀ st : Status, st ≠ .archived →
      updateTaskStatus s uid tid st = (s, .error invalidTransition))
    ∧ (updateTaskStatus s uid tid .archived).2 = .ok t
    ∧ (∀ b : UpdateBody, b.category = none →
        (updateTask s uid tid b).2 = .ok (applyBody b t)) := by
  refine ⟨?_, ?_, ?_⟩
  · intro st hst
    have hb : (st != Status.archived) = true := by
      simpa using hst
    simp [updateTaskStatus, hfind, harch, hb]
  · simp only [updateTaskStatus, hfind, harch]
    have : (Status.archived == Status.archived
        && Status.archived != Status.archived) = false := by decide
    rw [this]
    simp only [Bool.false_eq_true, if_false]
    have ht : { t with status := Status.archived } = t := by
      cases t
      simp_all
    rw [ht]
  · intro b hb
    simp only [updateTask, hfind, hb]

/-- Witness for C1 (amended) at the concrete archived task. -/
theorem c1_witness :
    updateTaskStatus archivedState 1 5 Status.todo =
      (archivedState, .error invalidTransition)
    ∧ (updateTaskStatus archivedState 1 5 Status.archived).2 =
      .ok { id := 5, user := 1, title := "t", status := .archived } := by
  have H := c1_archived_terminal archivedState 1 5
    { id := 5, user := 1, title := "t", status := .archived } (by decide) rfl
  exact ⟨H.1 Status.todo (by decide), H.2.1⟩

/-- C2 failing input: user 1 owns category 7 with taskCount 1 and task 5
referencing it; a successful `updateTask` whose body contains only `title`
(no `category` key) decrements category 7's counter to 0 while task 5 still
references category 7, so `taskCount` (0) no longer equals the true count of
tasks referencing the category (1).  The decrement fires because the source
compares `oldCategory.toString() !== req.body.category` and an absent key is
`undefined`, which is unequal to any id string. -/
theorem c2_counter_invariant_broken :
    (updateTask c2State 1 5 { title := some "x" }).2 =
      .ok { id := 5, user := 1, title := "x", category := some 7 }
    ∧ (updateTask c2State 1 5 { title := some "x" }).1.cats =
      [{ id := 7, user := 1, name := "Work", taskCount := 0 }]
    ∧ ((updateTask c2State 1 5 { title := some "x" }).1.tasks.filter
        (fun t => t.category == some 7 && t.user == 1)).length = 1 := by
  decide

/-- C3 failing input: user 1 owns existing task 5 (share set empty) and the
target user 2 exists, so per the claim `share(1, 5, 2)` should append 2 to
the share set — instead the source's `User.findById` evaluates an unbound
identifier (taskController.js imports only Task, Category and mongoose), the
ReferenceError is caught, and the call fails 500 SERVER_ERROR leaving the
state unchanged.  The second and third conjuncts record that the target user
exists and the task is not yet shared, i.e. the claimed success branch
applies. -/
theorem c3_share_throws :
    shareTask c3State 1 5 2 = (c3State, .error (serverError "User is not defined"))
    ∧ c3State.users.any (fun u => u.id == 2) = true
    ∧ (c3State.tasks.find? (fun t => t.id == 5)).map Task.sharedWith = some [] := by
  decide

/-- When no task document matches both the id and the owner, the scoped
lookup comes back empty. -/
lemma findTask_eq_none (s : St) (tid uid : Nat)
    (h : ∀ t ∈ s.tasks, t.id = tid → t.user ≠ uid) :
    findTask s tid uid = none := by
  rw [findTask, List.find?_eq_none]
  intro t ht
  simp only [Bool.and_eq_true, beq_iff_eq, not_and]
  intro hid
  exact h t ht hid

/-- C4: the `sharedWith` grant is read-only — every mutating task operation
looks the task up scoped to `user = caller`, so a caller who is not the
owner (in particular one who is merely in `sharedWith`) receives the same
404 NOT_FOUND `Task not found` response the operation gives for a task id
that does not exist at all, and the state is unchanged.  The hypothesis says
no task with this id is owned by the caller, which covers both the
non-owner case and the absent-task case, making the two indistinguishable. -/
theorem c4_sharing_never_writes (s : St) (uid tid : Nat)
    (h : ∀ t ∈ s.tasks, t.id = tid → t.user ≠ uid) :
    (∀ b : UpdateBody, updateTask s uid tid b = (s, .error taskNotFound))
    ∧ deleteTask s uid tid = (s, .error taskNotFound)
    ∧ (∀ st : Status, updateTaskStatus s uid tid st = (s, .error taskNotFound))
    ∧ (∀ p : Priority, updateTaskPriority s uid tid p = (s, .error taskNotFound))
    ∧ (∀ target : Nat, shareTask s uid tid target = (s, .error taskNotFound)) := by
  have hf := findTask_eq_none s tid uid h
  exact ⟨fun b => by simp [updateTask, hf],
         by simp [deleteTask, hf],
         fun st => by simp [updateTaskStatus, hf],
         fun p => by simp [updateTaskPriority, hf],
         fun target => by simp [shareTask, hf]⟩

/-- A store where user 1 owns task 5 and shares it with user 2. -/
def c4State : St :=
  { users :=
      [{ id := 1, username := "alice", email := "a@x.com", passwordHash := hashP "secret1" },
       { id := 2, username := "bob", email := "b@x.com", passwordHash := hashP "pw" }],
    tasks := [{ id := 5, user := 1, title := "t", sharedWith := [2] }] }

/-- Witness for C4: user 2 is in task 5's share set yet every mutation by
user 2 fails 404 and changes nothing. -/
theorem c4_witness :
    updateTask c4State 2 5 { title := some "x" } = (c4State, .error taskNotFound)
    ∧ deleteTask c4State 2 5 = (c4State, .error taskNotFound)
    ∧ updateTaskStatus c4State 2 5 .completed = (c4State, .error taskNotFound)
    ∧ updateTaskPriority c4State 2 5 .high = (c4State, .error taskNotFound)
    ∧ shareTask c4State 2 5 1 = (c4State, .error taskNotFound) := by
  have H := c4_sharing_never_writes c4State 2 5 (by decide)
  exact ⟨H.1 _, H.2.1, H.2.2.1 _, H.2.2.2.1 _, H.2.2.2.2 _⟩

/-- C10: `createTask` performs the category ownership check before any write
— when the supplied category id resolves to no category owned by the caller,
the call returns 404 `Category not found` with the store unchanged: no task
is inserted and no counter moves. -/
theorem c10_create_atomic_on_category_failure (s : St) (uid cid newId : Nat)
    (b : CreateBody) (hb : b.category = some cid)
    (hnone : ∀ c ∈ s.cats, c.id = cid → c.user ≠ uid) :
    createTask s uid b newId = (s, .error categoryNotFound) := by
  have hf : findCat s cid uid = none := by
    rw [findCat, List.find?_eq_none]
    intro c hc
    simp only [Bool.and_eq_true, beq_iff_eq, not_and]
    intro hid
    exact hnone c hc hid
  simp [createTask, hb, hf]

/-- A store holding only a category owned by user 2. -/
def c10State : St :=
  { cats := [{ id := 9, user := 2, name := "Other" }] }

/-- Witness for C10: user 1 creating a task against user 2's category 9
fails without inserting anything. -/
theorem c10_witness :
    createTask c10State 1 { title := "a", category := some 9 } 11 =
      (c10State, .error categoryNotFound) :=
  c10_create_atomic_on_category_failure c10State 1 9 11
    { title := "a", category := some 9 } rfl (by decide)

/-- C7: login is enumeration-free — a login attempt with an email belonging
to no user and a login attempt with a registered email but a wrong password
both return literally the same response: the 401 INVALID_CREDENTIALS error
with message `Invalid email or password`, and neither mutates the store, so
the two runs are indistinguishable to the client. -/
theorem c7_login_enumeration_free (s : St) (e1 p1 e2 p2 : String)
    (h1 : ∀ u ∈ s.users, u.email ≠ e1)
    (hex : ∃ u ∈ s.users, u.email = e2)
    (h2 : ∀ u ∈ s.users, u.email = e2 → comparePassword u p2 = false) :
    login s e1 p1 = (s, .error invalidCredentials)
    ∧ login s e2 p2 = (s, .error invalidCredentials)
    ∧ login s e1 p1 = login s e2 p2
    ∧ invalidCredentials.code = "INVALID_CREDENTIALS"
    ∧ invalidCredentials.status = 401 := by
  have hf1 : s.users.find? (fun u => u.email == e1) = none := by
    rw [List.find?_eq_none]
    intro u hu
    simp only [beq_iff_eq]
    exact h1 u hu
  have hL1 : login s e1 p1 = (s, .error invalidCredentials) := by
    simp [login, hf1]
  have hL2 : login s e2 p2 = (s, .error invalidCredentials) := by
    cases hf2 : s.users.find? (fun u => u.email == e2) with
    | none =>
      obtain ⟨u, hu, he⟩ := hex
      rw [List.find?_eq_none] at hf2
      exact absurd (by simpa using he) (hf2 u hu)
    | some u =>
      have hmem := List.mem_of_find?_eq_some hf2
      have hpe : u.email = e2 := by simpa using List.find?_some hf2
      have hcp := h2 u hmem hpe
      simp [login, hf2, hcp]
  exact ⟨hL1, hL2, hL1.trans hL2.symm, rfl, rfl⟩

/-- A store with one registered user, alice. -/
def c7State : St :=
  { users :=
      [{ id := 1, username := "alice", email := "alice@x.com",
         passwordHash := hashP "secret1" }] }

/-- Witness for C7: unknown email vs. alice's email with a wrong password
produce the identical INVALID_CREDENTIALS response. -/
theorem c7_witness :
    login c7State "nobody@x.com" "whatever" = (c7State, .error invalidCredentials)
    ∧ login c7State "alice@x.com" "wrongpw" = (c7State, .error invalidCredentials) := by
  have H := c7_login_enumeration_free c7State "nobody@x.com" "whatever"
    "alice@x.com" "wrongpw" (by decide) (by decide) (by decide)
  exact ⟨H.1, H.2.1⟩

/-- Scoped user lookup: with store-unique user ids, a predicate that pins the
id down to `u.id` and holds at `u` finds exactly `u`. -/
lemma find_user_eq (l : List User) (hnd : (l.map User.id).Nodup)
    (p : User → Bool) (u : User) (hu : u ∈ l) (hp : p u = true)
    (hid : ∀ x, p x = true → x.id = u.id) :
    l.find? p = some u := by
  induction l with
  | nil => cases hu
  | cons a as ih =>
    simp only [List.map_cons, List.nodup_cons] at hnd
    rcases List.mem_cons.mp hu with rfl | hmem
    · simp [List.find?, hp]
    · cases hpa : p a with
      | true =>
        exfalso
        have : a.id = u.id := hid a hpa
        exact hnd.1 (this ▸ List.mem_map_of_mem User.id hmem)
      | false =>
        simp only [List.find?, hpa]
        exact ih hnd.2 hmem

/-- C6: a refresh token is single-use.  For a user `u` storing the freshly
issued token `t` (its nonce predates the issuing counter, as for every token
the system has handed out), presenting `t` succeeds, the stored token is
replaced by a new distinct value, and presenting `t` again at the resulting
state fails 401 INVALID_TOKEN because no user record stores `t` any longer.
Moreover, at every state with store-unique user ids, at most one token per
subject is accepted: two accepted tokens for the same subject are equal,
since each user record stores at most one token. -/
theorem c6_refresh_token_single_use (s : St) (u : User) (t : RToken)
    (hnd : (s.users.map User.id).Nodup) (hu : u ∈ s.users)
    (hsub : t.sub = u.id) (htok : u.refreshToken = some t)
    (hfresh : t.nonce < s.tokenCtr) :
    ((refresh s (some t)).2 = .ok ⟨u.id, s.tokenCtr⟩
      ∧ (⟨u.id, s.tokenCtr⟩ : RToken) ≠ t
      ∧ (refresh (refresh s (some t)).1 (some t)).2 = .error invalidTokenResp)
    ∧ (∀ (s' : St), (s'.users.map User.id).Nodup →
        ∀ t1 t2 : RToken, t1.sub = t2.sub →
        (∃ r1, (refresh s' (some t1)).2 = .ok r1) →
        (∃ r2, (refresh s' (some t2)).2 = .ok r2) → t1 = t2) := by
  have hp : (fun x => x.id == t.sub && x.refreshToken == some t) u = true := by
    simp [hsub, htok]
  have hfind : s.users.find? (fun x => x.id == t.sub && x.refreshToken == some t)
      = some u := by
    apply find_user_eq s.users hnd _ u hu hp
    intro x hx
    simp only [Bool.and_eq_true, beq_iff_eq] at hx
    rw [hx.1, hsub]
  constructor
  · have hr1 : refresh s (some t) =
        ({ s with
            users := saveUser { u with refreshToken := some ⟨u.id, s.tokenCtr⟩ } s.users,
            tokenCtr := s.tokenCtr + 1 },
         .ok ⟨u.id, s.tokenCtr⟩) := by
      simp [refresh, hfind, generateRefreshToken]
    refine ⟨by rw [hr1], ?_, ?_⟩
    · intro he
      have : s.tokenCtr = t.nonce := congrArg RToken.nonce he
      omega
    · rw [hr1]
      have hnone :
          (saveUser { u with refreshToken := some ⟨u.id, s.tokenCtr⟩ } s.users).find?
            (fun x => x.id == t.sub && x.refreshToken == some t) = none := by
        rw [List.find?_eq_none]
        intro y hy
        rw [saveUser] at hy
        obtain ⟨x, hx, hxy⟩ := List.mem_map.mp hy
        by_cases hxe : x.id = u.id
        · have : y = { u with refreshToken := some ⟨u.id, s.tokenCtr⟩ } := by
            rw [← hxy]
            simp [hxe]
          rw [this]
          simp only [Bool.and_eq_true, beq_iff_eq, not_and]
          intro _
          intro hcontra
          have : s.tokenCtr = t.nonce :=
            congrArg RToken.nonce (Option.some.inj hcontra)
          omega
        · have : y = x := by
            rw [← hxy]
            simp [hxe]
          rw [this]
          simp only [Bool.and_eq_true, beq_iff_eq, not_and]
          intro hcontra
          exact absurd (hcontra.trans hsub) hxe
      simp [refresh, hnone]
  · intro s' hnd' t1 t2 hsubs h1 h2
    obtain ⟨r1, hr1⟩ := h1
    obtain ⟨r2, hr2⟩ := h2
    cases hf1 : s'.users.find? (fun x => x.id == t1.sub && x.refreshToken == some t1) with
    | none => simp [refresh, hf1] at hr1
    | some v1 =>
      cases hf2 : s'.users.find? (fun x => x.id == t2.sub && x.refreshToken == some t2) with
      | none => simp [refresh, hf2] at hr2
      | some v2 =>
        have hm1 := List.mem_of_find?_eq_some hf1
        have hm2 := List.mem_of_find?_eq_some hf2
        have hq1 := List.find?_some hf1
        have hq2 := List.find?_some hf2
        simp only [Bool.and_eq_true, beq_iff_eq] at hq1 hq2
        have hveq : v1 = v2 := by
          apply List.inj_on_of_nodup_map hnd' hm1 hm2
          rw [hq1.1, hq2.1, hsubs]
        have : some t1 = some t2 := by
          rw [← hq1.2, hveq, hq2.2]
        exact Option.some.inj this

/-- A store with alice holding the freshly issued refresh token ⟨1, 0⟩. -/
def c6State : St :=
  { users :=
      [{ id := 1, username := "alice", email := "alice@x.com",
         passwordHash := hashP "secret1", refreshToken := some ⟨1, 0⟩ }],
    tokenCtr := 1 }

/-- Witness for C6: after alice's token ⟨1, 0⟩ is presented once, presenting
it again fails INVALID_TOKEN. -/
theorem c6_witness :
    (refresh c6State (some ⟨1, 0⟩)).2 = .ok ⟨1, 1⟩
    ∧ (refresh (refresh c6State (some ⟨1, 0⟩)).1 (some ⟨1, 0⟩)).2 =
        .error invalidTokenResp := by
  have H := (c6_refresh_token_single_use c6State
    { id := 1, username := "alice", email := "alice@x.com",
      passwordHash := hashP "secret1", refreshToken := some ⟨1, 0⟩ }
    ⟨1, 0⟩ (by decide) (by decide) rfl rfl (by decide)).1
  exact ⟨H.1, H.2.2⟩

/-- Round-trip of the aggregate formatting: writing the aggregate's groups
over the four zero-initialised buckets yields, in each bucket, exactly the
count of the user's tasks with that status — a status with no tasks produces
no group and its bucket stays zero, and a present group overwrites the zero
with its count. -/
lemma formatStats_aggregateStats (tasks : List Task) (uid : Nat) :
    formatStats (aggregateStats tasks uid) =
      { todo := countByStatus tasks uid .todo,
        inProgress := countByStatus tasks uid .inProgress,
        completed := countByStatus tasks uid .completed,
        archived := countByStatus tasks uid .archived } := by
  by_cases h1 : countByStatus tasks uid .todo = 0 <;>
  by_cases h2 : countByStatus tasks uid .inProgress = 0 <;>
  by_cases h3 : countByStatus tasks uid .completed = 0 <;>
  by_cases h4 : countByStatus tasks uid .archived = 0 <;>
    simp [aggregateStats, formatStats, h1, h2, h3, h4]

/-- C5: in every `getTasks` response the per-status counts are computed over
ALL of the caller's tasks, ignoring the active filter (the right-hand sides
below mention no filter parameter), the buckets are exactly the four
statuses with an absent aggregate bucket reported as zero
(`formatStats_aggregateStats`), while `pagination.total` is the count of
tasks matching the filter query before any skip/limit is applied. -/
theorem c5_stats_ignore_filter (s : St) (uid : Nat) (p : ListParams) :
    (getTasks s uid p).stats.todo = countByStatus s.tasks uid .todo
    ∧ (getTasks s uid p).stats.inProgress = countByStatus s.tasks uid .inProgress
    ∧ (getTasks s uid p).stats.completed = countByStatus s.tasks uid .completed
    ∧ (getTasks s uid p).stats.archived = countByStatus s.tasks uid .archived
    ∧ (getTasks s uid p).pagination.total =
        (s.tasks.filter (matchesQuery (buildFilterQuery uid p.filters))).length := by
  refine ⟨?_, ?_, ?_, ?_, ?_⟩ <;>
    simp [getTasks, formatStats_aggregateStats]

/-- C8: a successful `deleteCategory` on a category owned by the caller
removes that category (with store-unique category ids, no category with that
id and owner remains) and, in the same operation, rewrites the caller's task
collection so that exactly the tasks owned by the same user that referenced
the category get `category := none` while *all their other fields are kept*
(the `\x7b t with category := none \x7d` update touches no other field), and
every other task is returned verbatim. -/
theorem c8_delete_category_cascade (s : St) (uid cid : Nat) (c : Category)
    (hnd : (s.cats.map Category.id).Nodup)
    (hfind : findCat s cid uid = some c) :
    deleteCategory s uid cid =
      ({ s with
          cats := s.cats.eraseP (fun x => x.id == cid && x.user == uid),
          tasks := s.tasks.map (fun t =>
            if t.user = uid ∧ t.category = some cid then { t with category := none }
            else t) },
       .ok ())
    ∧ ∀ x ∈ (deleteCategory s uid cid).1.cats, ¬(x.id = cid ∧ x.user = uid) := by
  rw [findCat] at hfind
  have hcp := List.find?_some hfind
  simp only [Bool.and_eq_true, beq_iff_eq] at hcp
  obtain ⟨hcid, hcuser⟩ := hcp
  have hmem := List.mem_of_find?_eq_some hfind
  have hmap : ∀ t ∈ s.tasks,
      (if t.category == some c.id && t.user == uid then { t with category := none }
       else t)
      = (if t.user = uid ∧ t.category = some cid then { t with category := none }
         else t) := by
    intro t _
    simp only [hcid]
    by_cases h1 : t.category = some cid <;> by_cases h2 : t.user = uid <;>
      simp [h1, h2]
  have hdel : deleteCategory s uid cid =
      ({ s with
          cats := s.cats.eraseP (fun x => x.id == cid && x.user == uid),
          tasks := s.tasks.map (fun t =>
            if t.user = uid ∧ t.category = some cid then { t with category := none }
            else t) },
       .ok ()) := by
    simp only [deleteCategory, findCat, hfind]
    rw [List.map_congr_left hmap]
  refine ⟨hdel, ?_⟩
  intro x hx
  rw [hdel] at hx
  simp only at hx
  rintro ⟨hxid, hxuser⟩
  obtain ⟨a, l₁, l₂, hl₁, hpa, heq, herase⟩ :=
    List.exists_of_eraseP hmem (p := fun x => x.id == cid && x.user == uid)
      (by simp [hcid, hcuser])
  rw [herase] at hx
  simp only [Bool.and_eq_true, beq_iff_eq] at hpa
  have hxl : x ∈ s.cats := by
    rw [heq]
    rcases List.mem_append.mp hx with h | h
    · exact List.mem_append.mpr (Or.inl h)
    · exact List.mem_append.mpr (Or.inr (List.mem_cons_of_mem a h))
  have hal : a ∈ s.cats := by
    rw [heq]
    exact List.mem_append.mpr (Or.inr (List.mem_cons_self a l₂))
  have hxa : x = a :=
    List.inj_on_of_nodup_map hnd hxl hal (by rw [hxid, hpa.1])
  have hnodup : s.cats.Nodup := List.Nodup.of_map Category.id hnd
  rw [heq] at hnodup
  rcases List.nodup_append.mp hnodup with ⟨-, h₂, hdisj⟩
  rcases List.mem_append.mp (hxa ▸ hx) with hmem1 | hmem2
  · exact hdisj hmem1 (List.mem_cons_self a l₂)
  · exact (List.nodup_cons.mp h₂).1 hmem2

/-- A store for the cascade witness: user 1 owns category 7, a task
referencing it, and a task that does not; user 2 owns a task referencing a
category with the same id. -/
def c8State : St :=
  { cats := [{ id := 7, user := 1, name := "Work", taskCount := 1 }],
    tasks :=
      [{ id := 5, user := 1, title := "a", category := some 7,
         tags := ["x"], sharedWith := [2] },
       { id := 6, user := 1, title := "b", category := none },
       { id := 8, user := 2, title := "c", category := some 7 }] }

/-- Witness for C8 at the concrete store: the category disappears, task 5
loses only its category reference, tasks 6 and 8 are untouched. -/
theorem c8_witness :
    deleteCategory c8State 1 7 =
      ({ c8State with
          cats := c8State.cats.eraseP (fun x => x.id == 7 && x.user == 1),
          tasks := c8State.tasks.map (fun t =>
            if t.user = 1 ∧ t.category = some 7 then { t with category := none }
            else t) },
       .ok ())
    ∧ ∀ x ∈ (deleteCategory c8State 1 7).1.cats, ¬(x.id = 7 ∧ x.user = 1) :=
  c8_delete_category_cascade c8State 1 7
    { id := 7, user := 1, name := "Work", taskCount := 1 }
    (by decide) (by decide)

/-- When the page is at least 1 the integer skip collapses to the natural
number `(page - 1) * limit`. -/
lemma skipOf_toNat (pg l : Nat) (h : 1 ≤ pg) :
    (skipOf pg l).toNat = (pg - 1) * l := by
  rw [skipOf]
  have hcast : (((pg - 1) * l : Nat) : Int) = ((pg : Int) - 1) * (l : Int) := by
    rw [Nat.cast_mul, Nat.cast_sub h, Nat.cast_one]
  rw [← hcast, Int.toNat_natCast]

/-- C9: the query filter builder is a pure translation — the produced query
is always scoped to `owner = uid`; a comma-separated status parameter turns
into a membership test over exactly the listed status strings; and
`getTasks` pages 1-indexed with defaults page 1 and limit 10, dropping
exactly `(page - 1) * limit` documents before taking a page. -/
theorem c9_filter_builder_pure (uid : Nat) (f : Filters) (s : St) (p : ListParams) :
    (buildFilterQuery uid f).user = uid
    ∧ (∀ str, f.status = some str →
        (buildFilterQuery uid f).statusIn = some (splitChar ',' str)
        ∧ ∀ t : Task, statusPart (buildFilterQuery uid f) t =
            (splitChar ',' str).contains t.status.str)
    ∧ (getTasks s uid { p with page := none, limit := none }).pagination.page = 1
    ∧ (getTasks s uid { p with page := none, limit := none }).pagination.limit = 10
    ∧ (∀ pg l : Nat, 1 ≤ pg →
        (getTasks s uid { p with page := some pg, limit := some l }).tasks =
          ((sortTasksBy (sortLe (p.sortBy.getD "dueDate:asc"))
              (s.tasks.filter (matchesQuery (buildFilterQuery uid p.filters)))).drop
            ((pg - 1) * l)).take l) := by
  refine ⟨rfl, ?_, ?_, ?_, ?_⟩
  · intro str hstr
    refine ⟨by simp [buildFilterQuery, hstr], ?_⟩
    intro t
    simp [statusPart, buildFilterQuery, hstr]
  · simp [getTasks]
  · simp [getTasks]
  · intro pg l hpg
    simp only [getTasks, ListParams.filters, Option.getD_some]
    rw [skipOf_toNat pg l hpg]

/-- Witness for C9 at concrete inputs: the built query is owner-scoped with
the two listed statuses, an archived task fails the membership test, and the
defaults and paging window evaluate as claimed on a two-task store. -/
theorem c9_witness :
    (buildFilterQuery 1 { status := some "todo,completed" }).user = 1
    ∧ (buildFilterQuery 1 { status := some "todo,completed" }).statusIn =
        some ["todo", "completed"]
    ∧ statusPart (buildFilterQuery 1 { status := some "todo,completed" })
        { id := 5, user := 1, title := "t", status := .archived } = false
    ∧ (getTasks c4State 1 {}).pagination.page = 1
    ∧ (getTasks c4State 1 {}).pagination.limit = 10
    ∧ (getTasks c4State 1 { page := some 2, limit := some 1 }).tasks =
        ((sortTasksBy (sortLe "dueDate:asc")
            (c4State.tasks.filter
              (matchesQuery (buildFilterQuery 1 (ListParams.filters {}))))).drop 1).take 1 := by
  have H := c9_filter_builder_pure 1 { status := some "todo,completed" } c4State {}
  have h2 := H.2.1 "todo,completed" rfl
  refine ⟨H.1, ?_, ?_, ?_, ?_, ?_⟩
  · rw [h2.1]
    decide
  · rw [h2.2 { id := 5, user := 1, title := "t", status := .archived }]
    decide
  · exact H.2.2.1
  · exact H.2.2.2.1
  · have := H.2.2.2.2 2 1 (by decide)
    simpa using this

end TaskApp
